import Mathlib

/- Verification of the content aggregation and briefing pipeline of the
   AI-access repository.  The Python sources are shallowly embedded below:
   feed entries and collected article records become structures, the pure
   helpers of the scripts become computable Lean functions over lists of
   characters, and the effectful main routine is modelled with its two
   external collaborators (text generation and delivery) passed in as
   functions.  String primitives are implemented over List Char so that
   every definition evaluates inside the kernel. -/

namespace AIAccess

/-- Lowercase a string character by character, as str.lower does on the
    ASCII text handled by these scripts. -/
def lowerStr (s : String) : String := ⟨s.data.map Char.toLower⟩

/-- Test whether the first list is an initial segment of the second. -/
def startsWithL : List Char → List Char → Bool
  | [], _ => true
  | _ :: _, [] => false
  | p :: ps, c :: cs => p == c && startsWithL ps cs

/-- Occurrence test for a pattern anywhere in a list of characters,
    embedding the Python substring operator. -/
def containsL (pat : List Char) : List Char → Bool
  | [] => startsWithL pat []
  | c :: cs => startsWithL pat (c :: cs) || containsL pat cs

/-- The Python substring test sub in text. -/
def containsStr (text sub : String) : Bool := containsL sub.data text.data

/-- The Python str.strip: remove leading and trailing whitespace. -/
def trimStr (s : String) : String :=
  ⟨((s.data.dropWhile Char.isWhitespace).reverse.dropWhile Char.isWhitespace).reverse⟩

/-- Python slicing s[:n] on strings (by characters). -/
def takeStr (s : String) (n : Nat) : String := ⟨s.data.take n⟩

/-- Python slicing s[n:] on strings (by characters). -/
def dropStr (s : String) (n : Nat) : String := ⟨s.data.drop n⟩

/-- Helper for splitLines: accumulate the current line in reverse. -/
def splitLinesAux : List Char → List Char → List String
  | [], acc => [⟨acc.reverse⟩]
  | c :: cs, acc =>
    if c = '\n' then ⟨acc.reverse⟩ :: splitLinesAux cs []
    else splitLinesAux cs (c :: acc)

/-- The Python split on a newline character, keeping empty pieces. -/
def splitLines (s : String) : List String := splitLinesAux s.data []

/-- The Python str.join with a separator. -/
def joinWith (sep : String) : List String → String
  | [] => ""
  | [x] => x
  | x :: y :: xs => x ++ sep ++ joinWith sep (y :: xs)

/-- Helper for replaceStr, with fuel bounded by the length of the text:
    replace left to right, continuing after each replacement as Python
    str.replace does. -/
def replaceAux (pat rep : List Char) : Nat → List Char → List Char
  | _, [] => []
  | 0, s => s
  | n + 1, c :: cs =>
    if startsWithL pat (c :: cs) then
      rep ++ replaceAux pat rep n (List.drop pat.length (c :: cs))
    else c :: replaceAux pat rep n cs

/-- The Python str.replace: replace every occurrence of pat by rep. -/
def replaceStr (s pat rep : String) : String :=
  ⟨replaceAux pat.data rep.data s.data.length s.data⟩

/-- Lexicographic comparison of character lists by code point; this is
    how Python compares the publication strings used as sort keys. -/
def lexLe : List Char → List Char → Bool
  | [], _ => true
  | _ :: _, [] => false
  | a :: as, b :: bs =>
    if a.toNat < b.toNat then true
    else if b.toNat < a.toNat then false
    else lexLe as bs

/-- String comparison used by the ranker. -/
def strLe (s t : String) : Bool := lexLe s.data t.data

/-- One raw feed entry as the source reader sees it; every field the
    scripts read through entry.get is optional. The two parsed
    timestamps are modelled as epoch seconds. -/
structure Entry where
  title : Option String
  summary : Option String
  description : Option String
  link : Option String
  published : Option String
  updated : Option String
  published_parsed : Option Int
  updated_parsed : Option Int
deriving DecidableEq

/-- One collected article record, mirroring the dict built in
    collect_articles.  The published field is optional so that the
    dict.get fallback of the ranker is represented, although collection
    always fills it. -/
structure Article where
  title : String
  link : String
  summary : String
  published : Option String
  source : String
deriving DecidableEq

/-- A parsed feed: its self-reported title and its entries. -/
structure Feed where
  title : Option String
  entries : List Entry
deriving DecidableEq

/-- The dedup key: lowercase the title, then drop every character that
    is not a word character or whitespace, embedding the regex
    substitution in collect_articles (ASCII reading). -/
def normTitle (title : String) : String :=
  ⟨(lowerStr title).data.filter (fun c => c.isAlphanum || c == '_' || c.isWhitespace)⟩

/-- Helper for dedup: the keys already inserted into the dict. -/
def dedupAux : List Article → List String → List Article
  | [], _ => []
  | a :: rest, seen =>
    if normTitle a.title ∈ seen then dedupAux rest seen
    else a :: dedupAux rest (normTitle a.title :: seen)

/-- The duplicate-removal pass of collect_articles: a dict keyed by the
    normalized title keeps the first record for each key, and values()
    returns survivors in first-insertion order. -/
def dedup (records : List Article) : List Article := dedupAux records []

/-- The sort key of the ranker: x.get with an empty-string default. -/
def sortKey (a : Article) : String := a.published.getD ""

/-- Insert one record into a descending-sorted list, after every record
    of greater or equal key, preserving stability. -/
def insertDesc (a : Article) : List Article → List Article
  | [] => [a]
  | b :: bs => if strLe (sortKey a) (sortKey b) then b :: insertDesc a bs else a :: b :: bs

/-- The ranker: list.sort(key, reverse=True) is the stable descending
    sort by key, embedded as stable insertion sort (the same function,
    since a stable sort is unique). -/
def sortDesc (records : List Article) : List Article :=
  records.foldl (fun acc a => insertDesc a acc) []

namespace Medicare

/-- Keywords for Medicare ACCESS and related programs. -/
def KEYWORDS : List String :=
  ["ACCESS", "ACO REACH", "Medicare Advantage",
   "CMS Innovation Center", "CMMI",
   "Medicare Part D", "medication therapy management", "MTM",
   "value-based care", "risk adjustment",
   "Medicare payment", "Medicare policy",
   "star ratings", "quality measures",
   "beneficiary", "Medicare enrollment",
   "prescription drug coverage", "formulary",
   "prior authorization", "step therapy"]

/-- High-priority terms. -/
def HIGH_PRIORITY : List String :=
  ["ACCESS program", "ACO REACH", "CMMI",
   "medication therapy management", "MTM",
   "Part D", "prescription drug"]

/-- The lowered concatenation of title and summary that the classifier
    scans. -/
def textOf (title summary : String) : String := lowerStr (title ++ " " ++ summary)

/-- The mandatory Medicare gate of the classifier. -/
def has_medicare (text : String) : Bool :=
  ["medicare", "cms", "centers for medicare"].any (fun term => containsStr text term)

/-- The high-priority tier of the classifier. -/
def highPriorityHit (text : String) : Bool :=
  HIGH_PRIORITY.any (fun term => containsStr text (lowerStr term))

/-- The general keyword tier of the classifier. -/
def keywordHit (text : String) : Bool :=
  KEYWORDS.any (fun keyword => containsStr text (lowerStr keyword))

/-- The Medicare relevance classifier is_relevant_article. -/
def is_relevant_article (title summary : String) : Bool :=
  if !has_medicare (textOf title summary) then false
  else if highPriorityHit (textOf title summary) then true
  else if keywordHit (textOf title summary) then true
  else false

/-- The summary fallback chain entry.get with a description default. -/
def summaryOf (e : Entry) : String := e.summary.getD (e.description.getD "")

/-- The timestamp fallback chain entry.get for the recency check. -/
def resolvedParsed (e : Entry) : Option Int :=
  match e.published_parsed with
  | some t => some t
  | none => e.updated_parsed

/-- The age in whole days used by the recency check: timedelta.days is
    floor division of the difference in seconds. -/
def daysSince (now t : Int) : Int := Int.fdiv (now - t) 86400

/-- The article dict appended by collect_articles for one entry. -/
def mkArticle (sourceTitle : Option String) (e : Entry) : Article :=
  ⟨e.title.getD "", e.link.getD "", takeStr (summaryOf e) 2000,
   some (e.published.getD (e.updated.getD "Date unknown")),
   sourceTitle.getD "Unknown source"⟩

/-- Processing of one feed entry in collect_articles: classify, apply
    the 21-day recency check when a parsed timestamp resolves, and build
    the article record. -/
def processEntry (sourceTitle : Option String) (now : Int) (e : Entry) : Option Article :=
  if is_relevant_article (e.title.getD "") (summaryOf e) then
    match resolvedParsed e with
    | some t => if daysSince now t > 21 then none else some (mkArticle sourceTitle e)
    | none => some (mkArticle sourceTitle e)
  else none

/-- The collection pipeline of collect_articles: scan the first 25
    entries of each feed, filter and build records, remove duplicates,
    and sort by publication key descending.  The network layer and the
    per-feed exception guard are outside the embedding: the input is the
    list of feeds that parsed. -/
def collect_articles (feeds : List Feed) (now : Int) : List Article :=
  let articles := (feeds.map (fun f => (f.entries.take 25).filterMap (processEntry f.title now))).flatten
  sortDesc (dedup articles)

/-- The bullet-text transform of create_html_email: strip the marker,
    then chain two replacements of the bold marker, exactly as the
    source does. -/
def convertBold (t : String) : String :=
  replaceStr (replaceStr t "**" "<strong>") "**" "</strong>"

/-- The list-opening tag emitted by create_html_email. -/
def ulOpen : String := "<ul style=\"line-height: 1.6;\">"

/-- The list-closing tag emitted by create_html_email. -/
def ulClose : String := "</ul>"

/-- The heading block emitted for a section line. -/
def h2Part (sectionStr : String) : String :=
  "<h2 style=\"color: #0066cc; margin-top: 20px;\">" ++ sectionStr ++ "</h2>"

/-- The bullet item block. -/
def liPart (text : String) : String := "<li>" ++ text ++ "</li>"

/-- The paragraph block. -/
def pPart (line : String) : String := "<p style=\"line-height: 1.6;\">" ++ line ++ "</p>"

/-- Section-line detection of create_html_email. -/
def isSectionLine (line : String) : Bool :=
  startsWithL "##".data line.data || containsStr line "EXECUTIVE SUMMARY" ||
    containsStr line "KEY TAKEAWAYS" || containsStr line "MILU STRATEGIC"

/-- Bullet-line detection of create_html_email. -/
def isBulletLine (line : String) : Bool :=
  startsWithL "•".data line.data || startsWithL "-".data line.data ||
    startsWithL "*".data line.data

/-- The heading text: strip the markers and surrounding whitespace. -/
def sectionText (line : String) : String :=
  trimStr (replaceStr (replaceStr line "##" "") "#" "")

/-- The line loop of create_html_email over the synthesis text, carrying
    the in_list flag, including the final close of a dangling list. -/
def processLines : List String → Bool → List String
  | [], inList => if inList then [ulClose] else []
  | l :: rest, inList =>
    let line := trimStr l
    if line = "" then processLines rest inList
    else if isSectionLine line then
      (if inList then [ulClose] else []) ++ (h2Part (sectionText line) :: processLines rest false)
    else if isBulletLine line then
      (if inList then [] else [ulOpen]) ++
        (liPart (convertBold (trimStr (dropStr line 1))) :: processLines rest true)
    else
      (if inList then [ulClose] else []) ++ (pPart line :: processLines rest false)

/-- Pair each element with its 1-based position, as enumerate does. -/
def numberFrom (n : Nat) : List Article → List (Nat × Article)
  | [] => []
  | a :: as => (n, a) :: numberFrom (n + 1) as

/-- The fixed header parts of the email; the formatted current date is a
    parameter since datetime.now is external. -/
def headerParts (dateStr : String) (n : Nat) : List String :=
  ["<div style=\"font-family: Arial, sans-serif; font-size: 12pt; max-width: 800px;\">",
   "<h1 style=\"color: #0066cc; text-align: center;\">Medicare ACCESS Program Weekly Brief</h1>",
   "<p style=\"text-align: center; color: #666; font-size: 11pt;\">Week ending " ++ dateStr ++ "</p>",
   "<p style=\"text-align: center; color: #666; font-size: 10pt; font-style: italic;\">Articles analyzed: "
     ++ toString n ++ " | Focus: Medicare ACCESS, Policy Changes, MTM Programs</p>",
   "<hr style=\"border: 1px solid #ddd; margin: 20px 0;\">"]

/-- The fixed parts opening the article reference list. -/
def refHeaderParts : List String :=
  ["<hr style=\"border: 1px solid #ddd; margin: 30px 0;\">",
   "<h2 style=\"color: #0066cc;\">Article Reference List</h2>",
   "<p style=\"font-style: italic; color: #666;\">All articles analyzed this week:</p>"]

/-- The per-article block of the reference list. -/
def articleParts (i : Nat) (a : Article) : List String :=
  ["<div style=\"margin: 15px 0; padding: 10px; background: #f9f9f9; border-left: 3px solid #0066cc;\">",
   "<p style=\"margin: 5px 0;\"><strong>" ++ toString i ++ ". " ++ a.title ++ "</strong></p>",
   "<p style=\"margin: 5px 0; font-size: 10pt; color: #666;\">" ++ a.source ++ " | "
     ++ a.published.getD "" ++ "</p>",
   "<p style=\"margin: 5px 0; font-size: 10pt;\"><a href=\"" ++ a.link
     ++ "\" style=\"color: #0066cc;\">" ++ a.link ++ "</a></p>",
   "</div>"]

/-- All html parts appended by create_html_email, in order. -/
def create_html_email_parts (dateStr summary : String) (articles : List Article) : List String :=
  headerParts dateStr articles.length
    ++ processLines (splitLines summary) false
    ++ refHeaderParts
    ++ ((numberFrom 1 articles).map (fun p => articleParts p.1 p.2)).flatten
    ++ ["</div>"]

/-- create_html_email: the parts joined by newlines. -/
def create_html_email (dateStr summary : String) (articles : List Article) : String :=
  joinWith "\n" (create_html_email_parts dateStr summary articles)

/-- The per-article block of the prompt sent to the synthesis service. -/
def articlePromptBlock (i : Nat) (a : Article) : String :=
  "ARTICLE " ++ toString i ++ ":\nTitle: " ++ a.title ++ "\nSource: " ++ a.source
    ++ "\nDate: " ++ a.published.getD "" ++ "\nSummary: " ++ takeStr a.summary 800
    ++ "\nLink: " ++ a.link

/-- The article_list block of the prompt. -/
def article_list (articles : List Article) : String :=
  joinWith "\n\n" ((numberFrom 1 articles).map (fun p => articlePromptBlock p.1 p.2))

/-- create_executive_summary: invoke the external text generator and, on
    failure, degrade to the error-labelled placeholder string.  The
    generator is abstracted as a function returning Except; the fixed
    instructional prose around the article list affects no claim and is
    elided from the prompt. -/
def create_executive_summary (gen : String → Except String String)
    (articles : List Article) : String :=
  match gen (article_list articles) with
  | Except.ok t => t
  | Except.error e => "Error creating executive summary: " ++ e

/-- The observable outcome of one run of main: whether the run exited on
    the no-records path, whether synthesis and delivery were reached,
    and the strings handed between the stages. -/
structure RunResult where
  noRecords : Bool
  synthesisCalled : Bool
  summaryUsed : Option String
  html : Option String
  deliveryAttempted : Bool
  deliverySuccess : Option Bool
deriving DecidableEq

/-- The main routine: collect, return early when nothing was collected,
    otherwise synthesize, render and attempt delivery.  The external
    generator and delivery channel are parameters. -/
def mainRun (gen : String → Except String String) (send : String → Bool)
    (dateStr : String) (feeds : List Feed) (now : Int) : RunResult :=
  let articles := collect_articles feeds now
  if articles.isEmpty then
    ⟨true, false, none, none, false, none⟩
  else
    let summary := create_executive_summary gen articles
    let html := create_html_email dateStr summary articles
    let ok := send html
    ⟨false, true, some summary, some html, true, some ok⟩

end Medicare

namespace Pharmacy

/-- Pharmacy and medication-specific keywords. -/
def PHARMACY_KEYWORDS : List String :=
  ["medication", "pharmacy", "pharmacist", "drug",
   "prescription", "adherence", "MTM", "medication therapy management",
   "polypharmacy", "deprescribing", "drug interaction",
   "medication safety", "medication error", "adverse drug",
   "clinical pharmacy", "pharmaceutical care",
   "medication reconciliation", "medication review"]

/-- Medicare program keywords. -/
def MEDICARE_KEYWORDS : List String :=
  ["Medicare", "ACCESS", "CMS", "Part D",
   "medication therapy management", "MTM",
   "star ratings", "Medicare Advantage"]

/-- The AI terms of the compound clause. -/
def ai_terms : List String :=
  ["ai", "artificial intelligence", "machine learning", "automation", "algorithm"]

/-- The technology terms of the medium-priority clause. -/
def tech_terms : List String :=
  ["technology", "digital", "innovation", "system", "platform"]

/-- The exclusion terms checked last. -/
def exclude_terms : List String :=
  ["imaging", "radiology", "ultrasound", "surgery", "robot surgery",
   "diagnostic imaging", "pathology", "NASA", "space"]

/-- The lowered concatenation of title and summary. -/
def textOf (title summary : String) : String := lowerStr (title ++ " " ++ summary)

/-- The Medicare tier of the pharmacy classifier. -/
def medicareHit (text : String) : Bool :=
  MEDICARE_KEYWORDS.any (fun keyword => containsStr text (lowerStr keyword))

/-- The has_ai flag of the pharmacy classifier. -/
def hasAI (text : String) : Bool := ai_terms.any (fun term => containsStr text term)

/-- The has_pharmacy flag of the pharmacy classifier. -/
def hasPharmacy (text : String) : Bool :=
  PHARMACY_KEYWORDS.any (fun keyword => containsStr text (lowerStr keyword))

/-- The technology tier test of the pharmacy classifier. -/
def techHit (text : String) : Bool := tech_terms.any (fun term => containsStr text term)

/-- The exclusion tier test of the pharmacy classifier; the terms are
    matched verbatim against the lowered text, as in the source. -/
def excludeHit (text : String) : Bool :=
  exclude_terms.any (fun term => containsStr text term)

/-- The pharmacy relevance classifier is_relevant_article, its tiers in
    source order. -/
def is_relevant_article (title summary : String) : Bool :=
  if medicareHit (textOf title summary) then true
  else if hasAI (textOf title summary) && hasPharmacy (textOf title summary) then true
  else if hasPharmacy (textOf title summary) && techHit (textOf title summary) then true
  else if excludeHit (textOf title summary) then false
  else false

/-- The same classifier with the exclusion tier deleted, for the
    refinement comparison of the dead exclusion clause. -/
def is_relevant_article_no_exclusion (title summary : String) : Bool :=
  if medicareHit (textOf title summary) then true
  else if hasAI (textOf title summary) && hasPharmacy (textOf title summary) then true
  else if hasPharmacy (textOf title summary) && techHit (textOf title summary) then true
  else false

end Pharmacy

namespace Merlin

/-- One parsed metrics row of the accuracy sheet. -/
structure MetricsRecord where
  date : String
  ascvd_correct : Int
  ascvd_incorrect : Int
  drug_interactions_detected : Int
  drug_interactions_missed : Int
  false_positives : Int
  allergy_failures : Int
  notes : String
deriving DecidableEq

/-- Digit accumulation for the integer parser; fails on any non-digit. -/
def parseDigitsAux : List Char → Nat → Option Nat
  | [], acc => some acc
  | c :: cs, acc =>
    if c.isDigit then parseDigitsAux cs (acc * 10 + (c.toNat - 48)) else none

/-- At least one digit is required. -/
def parseDigitsNonempty : List Char → Option Nat
  | [] => none
  | c :: cs => parseDigitsAux (c :: cs) 0

/-- The Python int() conversion on a cell string: optional sign,
    decimal digits, surrounding whitespace tolerated; anything else
    raises, modelled as none. -/
def pyInt (s : String) : Option Int :=
  match (trimStr s).data with
  | '-' :: rest => (parseDigitsNonempty rest).map (fun n => -(n : Int))
  | '+' :: rest => (parseDigitsNonempty rest).map (fun n => (n : Int))
  | rest => (parseDigitsNonempty rest).map (fun n => (n : Int))

/-- One counter cell: the guarded conversion int(cell) if cell else 0. -/
def parseCount (s : String) : Option Int := if s = "" then some 0 else pyInt s

/-- The record constructed inside the try block for a row with at least
    seven columns; none models the ValueError path. -/
def parseRowRecord : List String → Option MetricsRecord
  | d :: c1 :: c2 :: c3 :: c4 :: c5 :: c6 :: rest => do
    let a ← parseCount c1
    let b ← parseCount c2
    let c ← parseCount c3
    let dd ← parseCount c4
    let e ← parseCount c5
    let f ← parseCount c6
    some ⟨d, a, b, c, dd, e, f, rest.headD ""⟩
  | _ => none

/-- What happens to one data row in read_sheet_data. -/
inductive RowOutcome where
  | accepted (r : MetricsRecord)
  | shortRow
  | badRow
deriving DecidableEq

/-- Per-row dispatch of read_sheet_data: rows with fewer than seven
    columns fail the length guard silently; rows whose conversion raises
    are skipped with a printed warning. -/
def processRow (row : List String) : RowOutcome :=
  if 7 ≤ row.length then
    match parseRowRecord row with
    | some r => RowOutcome.accepted r
    | none => RowOutcome.badRow
  else RowOutcome.shortRow

/-- The row loop of read_sheet_data: the surviving records in order and
    the number of warnings printed. -/
def processRows : List (List String) → List MetricsRecord × Nat
  | [] => ([], 0)
  | row :: rest =>
    let p := processRows rest
    match processRow row with
    | RowOutcome.accepted r => (r :: p.1, p.2)
    | RowOutcome.badRow => (p.1, p.2 + 1)
    | RowOutcome.shortRow => p

/-- read_sheet_data on the fetched cell values: none when there is no
    data beyond the header, otherwise the parsed rows after discarding
    the header row. -/
def read_sheet_data (values : List (List String)) : Option (List MetricsRecord × Nat) :=
  if values.length < 2 then none else some (processRows values.tail)

end Merlin

/-- The list-structure events among the emitted html parts: true for a
    list-open tag, false for a list-close tag, other parts dropped. -/
def ulEvents (parts : List String) : List Bool :=
  parts.filterMap (fun s =>
    if s = Medicare.ulOpen then some true
    else if s = Medicare.ulClose then some false
    else none)

/-- Well-formed list events from a given open state: an open may occur
    only while no list is open, a close only while one is, and the state
    flips after each event. -/
def alternatesFrom : Bool → List Bool → Prop
  | _, [] => True
  | isOpen, e :: es => e = !isOpen ∧ alternatesFrom (!isOpen) es

/-- C1 input: a relevant entry with no publication information at all. -/
def cexEntryUnknown : Entry :=
  ⟨some "Medicare Part D update alpha", some "news about medicare", none,
   some "http://a", none, none, none, none⟩

/-- C1 input: a relevant entry carrying an ISO-format publication
    string and no parsed timestamp. -/
def cexEntryDated : Entry :=
  ⟨some "Medicare Part D update beta", some "more medicare news", none,
   some "http://b", some "2024-01-01", none, none, none⟩

/-- C1 input: one feed with the two entries above. -/
def cexFeedC1 : Feed := ⟨some "FeedX", [cexEntryUnknown, cexEntryDated]⟩

/-- C3 witness input: a relevant entry whose parsed timestamp is the
    epoch, far older than the window at the chosen current time. -/
def entryOldC3 : Entry :=
  ⟨some "Medicare Part D old", some "medicare", none, none, none, none, some 0, none⟩

/-- C3 witness input: a relevant entry with no parsed timestamp. -/
def entryNoDateC3 : Entry :=
  ⟨some "Medicare Part D fresh", some "medicare", none, none, none, none, none, none⟩

/-- C4 input: an entry with no title whose summary is relevant. -/
def entryC4 : Entry :=
  ⟨none, some "medicare part d coverage news", none, none, none, none, none, none⟩

/-- C4: the record that collection builds for entryC4; its title is the
    empty string. -/
def articleC4 : Article :=
  ⟨"", "", "medicare part d coverage news", some "Date unknown", "F"⟩

/-- C7 input: a seven-column row whose six counter cells are all empty. -/
def rowAllEmptyC7 : List String := ["2024-01-01", "", "", "", "", "", ""]

/-- C7: the record read_sheet_data builds from rowAllEmptyC7. -/
def recC7 : Merlin.MetricsRecord := ⟨"2024-01-01", 0, 0, 0, 0, 0, 0, ""⟩

/-- C9 witness input: a relevant entry, so that collection is nonempty. -/
def entryC9 : Entry :=
  ⟨some "Medicare Part D news", some "medicare update", none, some "http://c", none, none, none, none⟩

/-- C9 witness input: one feed around entryC9. -/
def feedsC9 : List Feed := [⟨some "FeedC", [entryC9]⟩]

open Medicare

/-- C3: for a relevant entry at a fixed current time, a resolvable
    parsed timestamp older than the 21-day trailing window excludes the
    entry, while an entry with no resolvable timestamp is never excluded
    by the recency check and is collected. -/
theorem recency_window_filter (src : Option String) (e : Entry) (now : Int)
    (hrel : is_relevant_article (e.title.getD "") (summaryOf e) = true) :
    (∀ t : Int, resolvedParsed e = some t → daysSince now t > 21 →
        processEntry src now e = none)
    ∧ (resolvedParsed e = none →
        processEntry src now e = some (mkArticle src e)) := by
  constructor
  · intro t ht hd
    simp [processEntry, hrel, ht, hd]
  · intro h
    simp [processEntry, hrel, h]

/-- C3 witness: the recency theorem applied to a stale entry and to an
    entry with no timestamp. -/
theorem recency_window_filter_witness :
    processEntry none 10000000 entryOldC3 = none
    ∧ processEntry none 0 entryNoDateC3 = some (mkArticle none entryNoDateC3) :=
  ⟨(recency_window_filter none entryOldC3 10000000 (by decide)).1 0 rfl (by decide),
   (recency_window_filter none entryNoDateC3 0 (by decide)).2 rfl⟩

/-- C4 counterexample: an entry with a missing title is not dropped
    before classification; the classifier accepts its summary and a
    record whose title is the empty string is collected. -/
theorem empty_title_classified_cex :
    processEntry (some "F") 0 entryC4 = some articleC4
    ∧ articleC4.title = ""
    ∧ is_relevant_article (entryC4.title.getD "") (summaryOf entryC4) = true := by
  decide

/-- C4 amended: the source reader drops no entry for an empty title;
    the classifier is applied to every entry with the title defaulted to
    the empty string, and an entry is collected exactly when the
    classifier accepts and the recency check passes, regardless of
    whether the title is empty. -/
theorem collection_ignores_title_emptiness (src : Option String) (now : Int) (e : Entry) :
    (processEntry src now e).isSome
      ↔ (is_relevant_article (e.title.getD "") (summaryOf e) = true
          ∧ ∀ t : Int, resolvedParsed e = some t → daysSince now t ≤ 21) := by
  unfold processEntry
  by_cases hrel : is_relevant_article (e.title.getD "") (summaryOf e) = true
  · cases hp : resolvedParsed e with
    | none => simp [hrel, hp]
    | some t =>
      by_cases hd : daysSince now t > 21
      · simp [hrel, hp, hd]
      · simp [hrel, hp, hd]
        omega
  · simp [hrel]

/-- C4 amended witness: the characterization applied to the concrete
    empty-title entry. -/
theorem collection_ignores_title_emptiness_witness :
    (processEntry (some "F") 0 entryC4).isSome :=
  (collection_ignores_title_emptiness (some "F") 0 entryC4).mpr
    ⟨by decide, by intro t ht; simp [resolvedParsed, entryC4] at ht⟩

/-- C5: the chained bullet-text replacement turns every bold marker,
    opening and closing alike, into an opening bold tag; the second
    replacement never fires, so no closing bold tag is ever emitted. -/
theorem bold_marker_replacement_bug :
    convertBold "**Key** point" = "<strong>Key<strong> point"
    ∧ containsStr (convertBold "**Key** point") "</strong>" = false
    ∧ processLines ["- **Key** point"] false
        = [ulOpen, liPart "<strong>Key<strong> point", ulClose] := by
  decide

/-- C6: the pharmacy relevance classifier computes the same boolean as
    its variant with the exclusion tier deleted, for every input; every
    path through the exclusion tier ends in the default rejection. -/
theorem pharmacy_exclusion_tier_dead (title summary : String) :
    Pharmacy.is_relevant_article title summary
      = Pharmacy.is_relevant_article_no_exclusion title summary := by
  unfold Pharmacy.is_relevant_article Pharmacy.is_relevant_article_no_exclusion
  cases hm : Pharmacy.medicareHit (Pharmacy.textOf title summary) <;>
    cases he : Pharmacy.excludeHit (Pharmacy.textOf title summary) <;>
      simp [hm, he]

/-- C8: when collection yields zero records, the run exits on the
    no-records path: synthesis is not invoked and no delivery is
    attempted. -/
theorem no_records_early_exit (gen : String → Except String String) (send : String → Bool)
    (dateStr : String) (feeds : List Feed) (now : Int)
    (h : collect_articles feeds now = []) :
    mainRun gen send dateStr feeds now = ⟨true, false, none, none, false, none⟩ := by
  simp [mainRun, h]

/-- C8 witness: the early exit on an empty feed list. -/
theorem no_records_early_exit_witness :
    mainRun (fun _ => Except.ok "") (fun _ => true) "Jan 01, 2025" [] 0
      = ⟨true, false, none, none, false, none⟩ :=
  no_records_early_exit _ _ _ [] 0 rfl

/-- Among the records sharing one dedup key, dedupAux keeps exactly the
    first one, and none at all when the key was already seen. -/
theorem dedupAux_filter (k : String) (records : List Article) : ∀ seen : List String,
    (dedupAux records seen).filter (fun a => normTitle a.title == k)
      = if k ∈ seen then []
        else (records.filter (fun a => normTitle a.title == k)).take 1 := by
  induction records with
  | nil => intro seen; simp [dedupAux]
  | cons a rest ih =>
    intro seen
    by_cases hmem : normTitle a.title ∈ seen
    · rw [show dedupAux (a :: rest) seen = dedupAux rest seen from by
        simp [dedupAux, hmem]]
      rw [ih seen]
      by_cases hks : k ∈ seen
      · simp [hks]
      · have hk : ¬ normTitle a.title = k := fun h => hks (h ▸ hmem)
        simp [hks, List.filter_cons, hk]
    · rw [show dedupAux (a :: rest) seen
            = a :: dedupAux rest (normTitle a.title :: seen) from by
        simp [dedupAux, hmem]]
      by_cases hk : normTitle a.title = k
      · rw [List.filter_cons, List.filter_cons]
        simp only [hk, beq_self_eq_true, if_pos]
        rw [ih (k :: seen)]
        have hks : ¬ k ∈ seen := fun h => hmem (hk ▸ h)
        simp [hks]
      · rw [List.filter_cons, List.filter_cons]
        have hkb : (normTitle a.title == k) = false := by
          simp [hk]
        simp only [hkb, if_neg, Bool.false_eq_true, not_false_iff]
        rw [ih (normTitle a.title :: seen)]
        have hk2 : ¬ k = normTitle a.title := fun h => hk h.symm
        simp [List.mem_cons, hk2]

/-- Every record surviving dedupAux has a key outside the seen set. -/
theorem dedupAux_key_not_seen : ∀ (records : List Article) (seen : List String)
    (a : Article), a ∈ dedupAux records seen → normTitle a.title ∉ seen
  | [], _, _, h => by simp [dedupAux] at h
  | b :: rest, seen, a, h => by
    by_cases hmem : normTitle b.title ∈ seen
    · rw [show dedupAux (b :: rest) seen = dedupAux rest seen from by
        simp [dedupAux, hmem]] at h
      exact dedupAux_key_not_seen rest seen a h
    · rw [show dedupAux (b :: rest) seen
            = b :: dedupAux rest (normTitle b.title :: seen) from by
        simp [dedupAux, hmem]] at h
      rcases List.mem_cons.mp h with rfl | h2
      · exact hmem
      · have := dedupAux_key_not_seen rest (normTitle b.title :: seen) a h2
        exact fun hs => this (List.mem_cons_of_mem _ hs)

/-- The surviving records of dedupAux have pairwise distinct keys. -/
theorem dedupAux_pairwise : ∀ (records : List Article) (seen : List String),
    (dedupAux records seen).Pairwise (fun a b => normTitle a.title ≠ normTitle b.title)
  | [], _ => by simp [dedupAux]
  | b :: rest, seen => by
    by_cases hmem : normTitle b.title ∈ seen
    · rw [show dedupAux (b :: rest) seen = dedupAux rest seen from by
        simp [dedupAux, hmem]]
      exact dedupAux_pairwise rest seen
    · rw [show dedupAux (b :: rest) seen
            = b :: dedupAux rest (normTitle b.title :: seen) from by
        simp [dedupAux, hmem]]
      refine List.Pairwise.cons ?_ (dedupAux_pairwise rest _)
      intro a ha hk
      exact dedupAux_key_not_seen rest _ a ha (hk ▸ List.mem_cons_self _ _)

/-- A list whose keys are pairwise distinct and disjoint from the seen
    set passes through dedupAux unchanged. -/
theorem dedupAux_fixed : ∀ (records : List Article) (seen : List String),
    records.Pairwise (fun a b => normTitle a.title ≠ normTitle b.title) →
    (∀ a ∈ records, normTitle a.title ∉ seen) →
    dedupAux records seen = records
  | [], _, _, _ => by simp [dedupAux]
  | b :: rest, seen, hp, hdis => by
    have hmem : normTitle b.title ∉ seen := hdis b (List.mem_cons_self _ _)
    rw [show dedupAux (b :: rest) seen
          = b :: dedupAux rest (normTitle b.title :: seen) from by
      simp [dedupAux, hmem]]
    rcases List.pairwise_cons.mp hp with ⟨hb, hrest⟩
    congr 1
    refine dedupAux_fixed rest _ hrest ?_
    intro a ha
    rw [List.mem_cons]
    rintro (h | h)
    · exact hb a ha h.symm
    · exact hdis a (List.mem_cons_of_mem _ ha) h

/-- C2: deduplication keeps, among all records whose titles normalize
    to the same key, exactly the record that appeared first in source
    order, and it is idempotent. -/
theorem dedup_first_wins_idempotent (records : List Article) (k : String) :
    (dedup records).filter (fun a => normTitle a.title == k)
      = (records.filter (fun a => normTitle a.title == k)).take 1
    ∧ dedup (dedup records) = dedup records := by
  constructor
  · rw [show dedup records = dedupAux records [] from rfl, dedupAux_filter]
    simp
  · show dedupAux (dedupAux records []) [] = dedupAux records []
    exact dedupAux_fixed _ [] (dedupAux_pairwise records []) (by simp)

/-- C7 counterexample: a seven-column row with six empty counter cells,
    hence only one populated column, still becomes a MetricsRecord (with
    zero counters); and a short row is skipped silently, with no warning
    counted. -/
theorem metrics_row_populated_cex :
    Merlin.processRow rowAllEmptyC7 = Merlin.RowOutcome.accepted recC7
    ∧ (rowAllEmptyC7.filter (fun s => s != "")).length = 1
    ∧ Merlin.processRows [["2024-01-01"]] = ([], 0) := by
  decide

/-- C7 amended: a row becomes a MetricsRecord only if it has at least
    seven columns, populated or not; rows with fewer columns are skipped
    silently, a warning is counted exactly for the rows with at least
    seven columns whose conversion fails, and every skip leaves the
    remaining rows processed in order. -/
theorem metrics_row_filtering (rows : List (List String)) (row : List String) :
    (∀ r : Merlin.MetricsRecord,
        Merlin.processRow row = Merlin.RowOutcome.accepted r → 7 ≤ row.length)
    ∧ (row.length < 7 → Merlin.processRow row = Merlin.RowOutcome.shortRow)
    ∧ (Merlin.processRows rows).1
        = rows.filterMap (fun w =>
            match Merlin.processRow w with
            | Merlin.RowOutcome.accepted r => some r
            | Merlin.RowOutcome.shortRow => none
            | Merlin.RowOutcome.badRow => none)
    ∧ (Merlin.processRows rows).2
        = (rows.filter (fun w => Merlin.processRow w == Merlin.RowOutcome.badRow)).length := by
  refine ⟨?_, ?_, ?_, ?_⟩
  · intro r h
    by_cases hl : 7 ≤ row.length
    · exact hl
    · simp [Merlin.processRow, hl] at h
  · intro hl
    simp [Merlin.processRow, Nat.not_le.mpr hl]
  · induction rows with
    | nil => simp [Merlin.processRows]
    | cons w ws ih =>
      cases h : Merlin.processRow w <;>
        simp [Merlin.processRows, h, ih]
  · induction rows with
    | nil => simp [Merlin.processRows]
    | cons w ws ih =>
      cases h : Merlin.processRow w <;>
        simp [Merlin.processRows, h, ih]

/-- C7 amended witness: the accepted all-empty row has seven columns,
    and a one-column row is skipped silently. -/
theorem metrics_row_filtering_witness :
    7 ≤ rowAllEmptyC7.length
    ∧ Merlin.processRow ["2024-01-01"] = Merlin.RowOutcome.shortRow :=
  ⟨(metrics_row_filtering [] rowAllEmptyC7).1 recC7 (by decide),
   (metrics_row_filtering [] ["2024-01-01"]).2.1 (by decide)⟩

/-- Characters with equal code points are equal. -/
theorem char_eq_of_toNat_eq {a b : Char} (h : a.toNat = b.toNat) : a = b :=
  Char.eq_of_val_eq (UInt32.ext h)

/-- The lexicographic comparison is total. -/
theorem lexLe_total : ∀ a b : List Char, lexLe a b = true ∨ lexLe b a = true
  | [], _ => Or.inl rfl
  | _ :: _, [] => Or.inr rfl
  | a :: as, b :: bs => by
    simp only [lexLe]
    rcases Nat.lt_trichotomy a.toNat b.toNat with h | h | h
    · left; simp [h]
    · have h2 : ¬ a.toNat < b.toNat := by omega
      have h3 : ¬ b.toNat < a.toNat := by omega
      simp only [h2, h3, if_false]
      exact lexLe_total as bs
    · right; simp [h]

/-- The lexicographic comparison is transitive. -/
theorem lexLe_transitive : ∀ a b c : List Char,
    lexLe a b = true → lexLe b c = true → lexLe a c = true
  | [], _, _, _, _ => rfl
  | _ :: _, [], _, h1, _ => by simp [lexLe] at h1
  | _ :: _, _ :: _, [], _, h2 => by simp [lexLe] at h2
  | a :: as, b :: bs, c :: cs, h1, h2 => by
    simp only [lexLe] at h1 h2 ⊢
    rcases Nat.lt_trichotomy a.toNat b.toNat with hab | hab | hab
    · rcases Nat.lt_trichotomy b.toNat c.toNat with hbc | hbc | hbc
      · have : a.toNat < c.toNat := by omega
        simp [this]
      · have : a.toNat < c.toNat := by omega
        simp [this]
      · simp [show ¬ b.toNat < c.toNat by omega, hbc] at h2
    · rcases Nat.lt_trichotomy b.toNat c.toNat with hbc | hbc | hbc
      · have : a.toNat < c.toNat := by omega
        simp [this]
      · have hac1 : ¬ a.toNat < c.toNat := by omega
        have hac2 : ¬ c.toNat < a.toNat := by omega
        simp only [hac1, hac2, if_false]
        simp only [show ¬ a.toNat < b.toNat by omega,
          show ¬ b.toNat < a.toNat by omega, if_false] at h1
        simp only [show ¬ b.toNat < c.toNat by omega,
          show ¬ c.toNat < b.toNat by omega, if_false] at h2
        exact lexLe_transitive as bs cs h1 h2
      · simp [show ¬ b.toNat < c.toNat by omega, hbc] at h2
    · simp [show ¬ a.toNat < b.toNat by omega, hab] at h1

/-- The lexicographic comparison is antisymmetric. -/
theorem lexLe_antisymmetric : ∀ a b : List Char,
    lexLe a b = true → lexLe b a = true → a = b
  | [], [], _, _ => rfl
  | [], _ :: _, _, h2 => by simp [lexLe] at h2
  | _ :: _, [], h1, _ => by simp [lexLe] at h1
  | a :: as, b :: bs, h1, h2 => by
    simp only [lexLe] at h1 h2
    rcases Nat.lt_trichotomy a.toNat b.toNat with h | h | h
    · simp [show ¬ b.toNat < a.toNat by omega, h] at h2
    · simp only [show ¬ a.toNat < b.toNat by omega,
        show ¬ b.toNat < a.toNat by omega, if_false] at h1 h2
      rw [char_eq_of_toNat_eq h, lexLe_antisymmetric as bs h1 h2]
    · simp [show ¬ a.toNat < b.toNat by omega, h] at h1

/-- Totality of the string comparison of the ranker. -/
theorem strLe_total (s t : String) : strLe s t = true ∨ strLe t s = true :=
  lexLe_total s.data t.data

/-- Transitivity of the string comparison of the ranker. -/
theorem strLe_transitive {s t u : String} (h1 : strLe s t = true) (h2 : strLe t u = true) :
    strLe s u = true :=
  lexLe_transitive s.data t.data u.data h1 h2

/-- Antisymmetry of the string comparison of the ranker. -/
theorem strLe_antisymmetric {s t : String} (h1 : strLe s t = true) (h2 : strLe t s = true) :
    s = t :=
  String.ext (lexLe_antisymmetric s.data t.data h1 h2)

/-- Membership through one insertion of the ranker. -/
theorem mem_insertDesc (a x : Article) : ∀ l : List Article,
    x ∈ insertDesc a l ↔ x = a ∨ x ∈ l
  | [] => by simp [insertDesc]
  | b :: bs => by
    unfold insertDesc
    by_cases hle : strLe (sortKey a) (sortKey b) = true
    · rw [if_pos hle]
      simp only [List.mem_cons, mem_insertDesc a x bs]
      tauto
    · rw [if_neg hle]
      simp only [List.mem_cons]

/-- One insertion of the ranker preserves the descending order. -/
theorem insertDesc_pairwise (a : Article) : ∀ l : List Article,
    l.Pairwise (fun x y => strLe (sortKey y) (sortKey x) = true) →
    (insertDesc a l).Pairwise (fun x y => strLe (sortKey y) (sortKey x) = true)
  | [], _ => List.pairwise_singleton _ _
  | b :: bs, h => by
    rcases List.pairwise_cons.mp h with ⟨hb, hbs⟩
    unfold insertDesc
    by_cases hle : strLe (sortKey a) (sortKey b) = true
    · rw [if_pos hle]
      refine List.pairwise_cons.mpr ⟨?_, insertDesc_pairwise a bs hbs⟩
      intro x hx
      rcases (mem_insertDesc a x bs).mp hx with rfl | hxbs
      · exact hle
      · exact hb x hxbs
    · rw [if_neg hle]
      have hba : strLe (sortKey b) (sortKey a) = true := by
        rcases strLe_total (sortKey a) (sortKey b) with h1 | h1
        · exact absurd h1 hle
        · exact h1
      refine List.pairwise_cons.mpr ⟨?_, h⟩
      intro x hx
      rcases List.mem_cons.mp hx with rfl | hxbs
      · exact hba
      · exact strLe_transitive (hb x hxbs) hba

/-- The fold of the ranker preserves the descending order of the
    accumulator. -/
theorem sortDescAux_pairwise : ∀ (l acc : List Article),
    acc.Pairwise (fun x y => strLe (sortKey y) (sortKey x) = true) →
    (l.foldl (fun acc a => insertDesc a acc) acc).Pairwise
      (fun x y => strLe (sortKey y) (sortKey x) = true)
  | [], _, h => h
  | a :: rest, acc, h => by
    simp only [List.foldl_cons]
    exact sortDescAux_pairwise rest _ (insertDesc_pairwise a acc h)

/-- The ranker output is descending in the sort key. -/
theorem sortDesc_pairwise (l : List Article) :
    (sortDesc l).Pairwise (fun x y => strLe (sortKey y) (sortKey x) = true) :=
  sortDescAux_pairwise l [] List.Pairwise.nil

/-- Membership through the fold of the ranker. -/
theorem mem_sortDescAux : ∀ (l acc : List Article) (x : Article),
    x ∈ l.foldl (fun acc a => insertDesc a acc) acc ↔ x ∈ acc ∨ x ∈ l
  | [], acc, x => by simp
  | a :: rest, acc, x => by
    simp only [List.foldl_cons]
    rw [mem_sortDescAux rest _ x, mem_insertDesc]
    simp only [List.mem_cons]
    tauto

/-- The ranker permutes membership only. -/
theorem mem_sortDesc (l : List Article) (x : Article) : x ∈ sortDesc l ↔ x ∈ l := by
  unfold sortDesc
  rw [mem_sortDescAux]
  simp

/-- dedup only removes records. -/
theorem mem_dedupAux_subset : ∀ (l : List Article) (seen : List String) (x : Article),
    x ∈ dedupAux l seen → x ∈ l
  | [], _, _, h => by simp [dedupAux] at h
  | a :: rest, seen, x, h => by
    by_cases hmem : normTitle a.title ∈ seen
    · rw [show dedupAux (a :: rest) seen = dedupAux rest seen from by
        simp [dedupAux, hmem]] at h
      exact List.mem_cons_of_mem _ (mem_dedupAux_subset rest seen x h)
    · rw [show dedupAux (a :: rest) seen
            = a :: dedupAux rest (normTitle a.title :: seen) from by
        simp [dedupAux, hmem]] at h
      rcases List.mem_cons.mp h with rfl | h2
      · exact List.mem_cons_self _ _
      · exact List.mem_cons_of_mem _ (mem_dedupAux_subset rest _ x h2)

/-- Every record produced by processEntry is the mkArticle record of
    its entry. -/
theorem processEntry_eq_mkArticle {src : Option String} {now : Int} {e : Entry} {a : Article}
    (h : processEntry src now e = some a) : a = mkArticle src e := by
  unfold processEntry at h
  by_cases hrel : is_relevant_article (e.title.getD "") (summaryOf e) = true
  · rw [if_pos hrel] at h
    cases hp : resolvedParsed e with
    | some t =>
      rw [hp] at h
      by_cases hd : daysSince now t > 21
      · simp [hd] at h
      · simp [hd] at h
        exact h.symm
    | none =>
      rw [hp] at h
      simp at h
      exact h.symm
  · rw [if_neg hrel] at h; cases h

/-- Every collected record carries a publication string, so the
    empty-string default of the sort key never applies to collected
    sequences. -/
theorem collect_published_isSome (feeds : List Feed) (now : Int) (a : Article)
    (h : a ∈ collect_articles feeds now) : a.published.isSome = true := by
  unfold collect_articles at h
  rw [mem_sortDesc] at h
  have h2 := mem_dedupAux_subset _ [] a h
  simp only [List.mem_flatten, List.mem_map] at h2
  obtain ⟨l, ⟨f, hf, rfl⟩, hal⟩ := h2
  obtain ⟨e, he, hpe⟩ := List.mem_filterMap.mp hal
  rw [processEntry_eq_mkArticle hpe]
  simp [mkArticle]

/-- C1 counterexample: a collected sequence in which the record with
    unknown publication carries the surrogate string Date unknown as
    its sort key, not the empty string, and sorts at the head of the
    descending order, the high end, above an ISO-dated record. -/
theorem ranker_unknown_surrogate_cex :
    (collect_articles [cexFeedC1] 0).map sortKey = ["Date unknown", "2024-01-01"]
    ∧ sortKey ((collect_articles [cexFeedC1] 0).headD ⟨"", "", "", none, ""⟩) ≠ ""
    ∧ cexEntryUnknown.published = none ∧ cexEntryUnknown.updated = none := by
  decide

/-- C1 amended: the ranker sorts every collected sequence in
    non-increasing order of the key published-with-empty-default; every
    collected record has a populated publication field, records built
    from entries with no publication information carry the surrogate
    string Date unknown as field and key, and records of equal key are
    contiguous, though the surrogate block need not sit at the low
    end. -/
theorem ranker_descending_with_date_unknown_surrogate (feeds : List Feed) (now : Int) :
    (collect_articles feeds now).Pairwise
        (fun x y => strLe (sortKey y) (sortKey x) = true)
    ∧ (∀ a ∈ collect_articles feeds now, a.published.isSome = true)
    ∧ (∀ (src : Option String) (e : Entry) (a : Article),
        e.published = none → e.updated = none →
        processEntry src now e = some a →
        a.published = some "Date unknown" ∧ sortKey a = "Date unknown")
    ∧ (∀ i j k : Fin (collect_articles feeds now).length, i ≤ j → j ≤ k →
        sortKey ((collect_articles feeds now).get i)
          = sortKey ((collect_articles feeds now).get k) →
        sortKey ((collect_articles feeds now).get j)
          = sortKey ((collect_articles feeds now).get i)) := by
  have hsorted : (collect_articles feeds now).Pairwise
      (fun x y => strLe (sortKey y) (sortKey x) = true) := by
    unfold collect_articles
    exact sortDesc_pairwise _
  refine ⟨hsorted, ?_, ?_, ?_⟩
  · intro a ha
    exact collect_published_isSome feeds now a ha
  · intro src e a hp hu hpe
    have ha := processEntry_eq_mkArticle hpe
    subst ha
    refine ⟨?_, ?_⟩
    · simp [mkArticle, hp, hu]
    · simp [sortKey, mkArticle, hp, hu]
  · intro i j k hij hjk hik
    have hget := List.pairwise_iff_get.mp hsorted
    rcases lt_or_eq_of_le hij with hlt | heq
    · rcases lt_or_eq_of_le hjk with hlt2 | heq2
      · have h1 := hget i j hlt
        have h2 := hget j k hlt2
        rw [← hik] at h2
        exact strLe_antisymmetric h1 h2
      · rw [heq2]
        exact hik.symm
    · rw [← heq]

/-- C1 amended witness: the amended ranking facts applied to the
    concrete two-entry feed and its unknown-publication entry. -/
theorem ranker_descending_witness :
    (collect_articles [cexFeedC1] 0).Pairwise
        (fun x y => strLe (sortKey y) (sortKey x) = true)
    ∧ (⟨"Medicare Part D update alpha", "http://a", "news about medicare",
        some "Date unknown", "FeedX"⟩ : Article).published.isSome = true
    ∧ ((mkArticle none cexEntryUnknown).published = some "Date unknown"
        ∧ sortKey (mkArticle none cexEntryUnknown) = "Date unknown")
    ∧ sortKey ((collect_articles [cexFeedC1] 0).get ⟨0, by decide⟩)
        = sortKey ((collect_articles [cexFeedC1] 0).get ⟨0, by decide⟩) :=
  ⟨(ranker_descending_with_date_unknown_surrogate [cexFeedC1] 0).1,
   (ranker_descending_with_date_unknown_surrogate [cexFeedC1] 0).2.1 _ (by decide),
   (ranker_descending_with_date_unknown_surrogate [cexFeedC1] 0).2.2.1 none cexEntryUnknown
     (mkArticle none cexEntryUnknown) rfl rfl (by decide),
   (ranker_descending_with_date_unknown_surrogate [cexFeedC1] 0).2.2.2
     ⟨0, by decide⟩ ⟨0, by decide⟩ ⟨0, by decide⟩ (by decide) (by decide) rfl⟩

/-- A bullet item is never the list-open tag. -/
theorem liPart_ne_ulOpen (t : String) : liPart t ≠ ulOpen := by
  intro h
  have hd := congrArg String.data h
  rw [liPart, ulOpen, String.data_append, String.data_append] at hd
  rw [show ("<li>" : String).data = ['<', 'l', 'i', '>'] from rfl] at hd
  simp at hd

/-- A bullet item is never the list-close tag. -/
theorem liPart_ne_ulClose (t : String) : liPart t ≠ ulClose := by
  intro h
  have hl := congrArg String.length h
  rw [liPart, ulClose, String.length_append, String.length_append,
    show ("<li>" : String).length = 4 from rfl,
    show ("</li>" : String).length = 5 from rfl,
    show ("</ul>" : String).length = 5 from rfl] at hl
  omega

/-- A paragraph is never the list-open tag. -/
theorem pPart_ne_ulOpen (t : String) : pPart t ≠ ulOpen := by
  intro h
  have hl := congrArg String.length h
  rw [pPart, ulOpen, String.length_append, String.length_append,
    show ("<p style=\"line-height: 1.6;\">" : String).length = 29 from rfl,
    show ("</p>" : String).length = 4 from rfl,
    show ("<ul style=\"line-height: 1.6;\">" : String).length = 30 from rfl] at hl
  omega

/-- A paragraph is never the list-close tag. -/
theorem pPart_ne_ulClose (t : String) : pPart t ≠ ulClose := by
  intro h
  have hl := congrArg String.length h
  rw [pPart, ulClose, String.length_append, String.length_append,
    show ("<p style=\"line-height: 1.6;\">" : String).length = 29 from rfl,
    show ("</p>" : String).length = 4 from rfl,
    show ("</ul>" : String).length = 5 from rfl] at hl
  omega

/-- A heading is never the list-open tag. -/
theorem h2Part_ne_ulOpen (t : String) : h2Part t ≠ ulOpen := by
  intro h
  have hl := congrArg String.length h
  rw [h2Part, ulOpen, String.length_append, String.length_append,
    show ("<h2 style=\"color: #0066cc; margin-top: 20px;\">" : String).length = 46 from rfl,
    show ("</h2>" : String).length = 5 from rfl,
    show ("<ul style=\"line-height: 1.6;\">" : String).length = 30 from rfl] at hl
  omega

/-- A heading is never the list-close tag. -/
theorem h2Part_ne_ulClose (t : String) : h2Part t ≠ ulClose := by
  intro h
  have hl := congrArg String.length h
  rw [h2Part, ulClose, String.length_append, String.length_append,
    show ("<h2 style=\"color: #0066cc; margin-top: 20px;\">" : String).length = 46 from rfl,
    show ("</h2>" : String).length = 5 from rfl,
    show ("</ul>" : String).length = 5 from rfl] at hl
  omega

/-- A part that is neither tag leaves the event view unchanged. -/
theorem ulEvents_cons_other {s : String} (hs1 : s ≠ ulOpen) (hs2 : s ≠ ulClose)
    (parts : List String) : ulEvents (s :: parts) = ulEvents parts := by
  simp [ulEvents, hs1, hs2]

/-- The list-open tag contributes an open event. -/
theorem ulEvents_cons_open (parts : List String) :
    ulEvents (ulOpen :: parts) = true :: ulEvents parts := by
  simp [ulEvents]

/-- The list-close tag contributes a close event. -/
theorem ulEvents_cons_close (parts : List String) :
    ulEvents (ulClose :: parts) = false :: ulEvents parts := by
  simp [ulEvents, show Medicare.ulClose ≠ Medicare.ulOpen from by decide]

/-- The event view of the renderer loop, from any starting state: the
    close events outnumber the open events by exactly one when a list is
    open at entry, and the events alternate correctly from the entry
    state. -/
theorem processLines_events : ∀ (lines : List String) (inList : Bool),
    ((ulEvents (processLines lines inList)).count false
        = (ulEvents (processLines lines inList)).count true
            + (if inList then 1 else 0))
    ∧ alternatesFrom inList (ulEvents (processLines lines inList))
  | [], inList => by
    cases inList
    · simp [processLines, ulEvents, alternatesFrom]
    · rw [show processLines [] true = [ulClose] from rfl, ulEvents_cons_close,
        show ulEvents [] = [] from rfl]
      simp [alternatesFrom]
  | l :: rest, inList => by
    by_cases h0 : trimStr l = ""
    · have e1 : processLines (l :: rest) inList = processLines rest inList := by
        simp [processLines, h0]
      rw [e1]
      exact processLines_events rest inList
    · cases h1 : isSectionLine (trimStr l) with
      | true =>
        have e1 : processLines (l :: rest) inList
            = (if inList then [ulClose] else [])
              ++ (h2Part (sectionText (trimStr l)) :: processLines rest false) := by
          simp [processLines, h0, h1]
        rw [e1]
        have ih := processLines_events rest false
        cases inList
        · rw [if_neg (by simp), List.nil_append,
            ulEvents_cons_other (h2Part_ne_ulOpen _) (h2Part_ne_ulClose _)]
          simpa using ih
        · rw [if_pos rfl, List.singleton_append, ulEvents_cons_close,
            ulEvents_cons_other (h2Part_ne_ulOpen _) (h2Part_ne_ulClose _)]
          have hc := ih.1
          rw [if_neg (by decide : ¬ (false = true)), Nat.add_zero] at hc
          refine ⟨?_, ?_⟩
          · rw [if_pos rfl]
            simp [List.count_cons]
            omega
          · exact ⟨by decide, by simpa using ih.2⟩
      | false =>
        cases h2 : isBulletLine (trimStr l) with
        | true =>
          have e1 : processLines (l :: rest) inList
              = (if inList then [] else [ulOpen])
                ++ (liPart (convertBold (trimStr (dropStr (trimStr l) 1)))
                    :: processLines rest true) := by
            simp [processLines, h0, h1, h2]
          rw [e1]
          have ih := processLines_events rest true
          have hc := ih.1
          rw [if_pos rfl] at hc
          cases inList
          · rw [if_neg (by decide : ¬ (false = true)), List.singleton_append,
              ulEvents_cons_open,
              ulEvents_cons_other (liPart_ne_ulOpen _) (liPart_ne_ulClose _)]
            refine ⟨?_, ?_⟩
            · rw [if_neg (by decide : ¬ (false = true))]
              simp [List.count_cons]
              omega
            · exact ⟨by decide, by simpa using ih.2⟩
          · rw [if_pos rfl, List.nil_append,
              ulEvents_cons_other (liPart_ne_ulOpen _) (liPart_ne_ulClose _)]
            refine ⟨?_, ih.2⟩
            rw [if_pos rfl]
            omega
        | false =>
          have e1 : processLines (l :: rest) inList
              = (if inList then [ulClose] else [])
                ++ (pPart (trimStr l) :: processLines rest false) := by
            simp [processLines, h0, h1, h2]
          rw [e1]
          have ih := processLines_events rest false
          have hc := ih.1
          rw [if_neg (by decide : ¬ (false = true)), Nat.add_zero] at hc
          cases inList
          · rw [if_neg (by decide : ¬ (false = true)), List.nil_append,
              ulEvents_cons_other (pPart_ne_ulOpen _) (pPart_ne_ulClose _)]
            refine ⟨?_, ih.2⟩
            rw [if_neg (by decide : ¬ (false = true))]
            omega
          · rw [if_pos rfl, List.singleton_append, ulEvents_cons_close,
              ulEvents_cons_other (pPart_ne_ulOpen _) (pPart_ne_ulClose _)]
            refine ⟨?_, ?_⟩
            · rw [if_pos rfl]
              simp [List.count_cons]
              omega
            · exact ⟨by decide, by simpa using ih.2⟩

/-- C10: for every synthesis text, the renderer emits as many
    list-close tags as list-open tags, and never opens a second list
    while one is open: the open and close events alternate, starting
    closed, even when the input ends inside a bullet run. -/
theorem renderer_lists_balanced (text : String) :
    ((ulEvents (processLines (splitLines text) false)).count true
        = (ulEvents (processLines (splitLines text) false)).count false)
    ∧ alternatesFrom false (ulEvents (processLines (splitLines text) false)) := by
  have h := processLines_events (splitLines text) false
  refine ⟨?_, h.2⟩
  have hc := h.1
  rw [if_neg (by decide : ¬ (false = true)), Nat.add_zero] at hc
  omega

/-- C9: when the synthesis call fails, the error is caught and turned
    into the error-labelled placeholder string, which is passed
    downstream as if it were valid synthesis output: the document is
    still rendered from it, the fixed article reference list is still
    part of the rendered parts, and delivery is still attempted. -/
theorem synthesis_failure_degrades (gen : String → Except String String)
    (send : String → Bool) (dateStr msg : String) (feeds : List Feed) (now : Int)
    (hne : collect_articles feeds now ≠ [])
    (herr : ∀ p, gen p = Except.error msg) :
    (mainRun gen send dateStr feeds now).summaryUsed
        = some ("Error creating executive summary: " ++ msg)
    ∧ (mainRun gen send dateStr feeds now).html
        = some (create_html_email dateStr ("Error creating executive summary: " ++ msg)
            (collect_articles feeds now))
    ∧ (mainRun gen send dateStr feeds now).deliveryAttempted = true
    ∧ "<h2 style=\"color: #0066cc;\">Article Reference List</h2>"
        ∈ create_html_email_parts dateStr ("Error creating executive summary: " ++ msg)
            (collect_articles feeds now) := by
  have hsum : create_executive_summary gen (collect_articles feeds now)
      = "Error creating executive summary: " ++ msg := by
    unfold create_executive_summary
    rw [herr]
  have hne2 : (collect_articles feeds now).isEmpty = false := by
    cases hco : collect_articles feeds now with
    | nil => exact absurd hco hne
    | cons a rest => rfl
  refine ⟨?_, ?_, ?_, ?_⟩
  · simp [mainRun, hne2, hsum]
  · simp [mainRun, hne2, hsum]
  · simp [mainRun, hne2]
  · unfold create_html_email_parts refHeaderParts
    simp

/-- C9 witness: the degradation facts applied to a concrete feed, an
    always-failing generator and an accepting delivery channel. -/
theorem synthesis_failure_degrades_witness :
    (mainRun (fun _ => Except.error "boom") (fun _ => true) "Jan 01, 2025" feedsC9 0).summaryUsed
        = some ("Error creating executive summary: " ++ "boom")
    ∧ (mainRun (fun _ => Except.error "boom") (fun _ => true) "Jan 01, 2025" feedsC9 0).html
        = some (create_html_email "Jan 01, 2025" ("Error creating executive summary: " ++ "boom")
            (collect_articles feedsC9 0))
    ∧ (mainRun (fun _ => Except.error "boom") (fun _ => true) "Jan 01, 2025" feedsC9 0).deliveryAttempted
        = true
    ∧ "<h2 style=\"color: #0066cc;\">Article Reference List</h2>"
        ∈ create_html_email_parts "Jan 01, 2025" ("Error creating executive summary: " ++ "boom")
            (collect_articles feedsC9 0) :=
  synthesis_failure_degrades (fun _ => Except.error "boom") (fun _ => true)
    "Jan 01, 2025" "boom" feedsC9 0 (by decide) (fun _ => rfl)

end AIAccess
